import Mathlib

/-!
Verification development for the Gemini assistant's conversation
persistence layer and analytics aggregator.

The Lean definitions below are a shallow embedding of the Python source:

* `Conversation` models one conversation record (a Python dict whose five
  known keys may each be absent, hence `Option` fields).
* `dictSet`, `withTs`, `sortDesc` model the Firebase conversation
  dictionary (`users/{uid}/conversations`) and the read path's sort.
* `FirebaseAuth.get_user_conversations`, `Dashboard.get_user_conversations`,
  `load_user_history_from_firebase`, `save_user_history_to_firebase`,
  `save_conversation_to_user` embed the equally named Python functions.
* `load_chat_history`, `save_chat_history` embed the local file backend,
  over an explicit `FileSystem` map.
* `calculate_stats` (with its loop accumulator `scanAcc`) embeds the
  dashboard aggregator.

Timestamps are compared the way Python compares `str` values:
lexicographically on code points, here via `String.data : List Char`
and the lexicographic `LinearOrder (List Char)`.
-/

namespace Gemini

/-- One conversation record: a Python dict whose five known keys
(`timestamp`, `prompt`, `response`, `mode`, `language`) may each be
absent, modelled by `Option` fields. -/
structure Conversation where
  timestamp : Option String
  prompt : Option String
  response : Option String
  mode : Option String
  language : Option String
  deriving DecidableEq, Repr

/-- The key of a record used by the sort in the Firebase read path:
Python's string comparison of `x['timestamp']`, embedded as the
code-point list of the timestamp string (empty when absent). -/
def tsKey (c : Conversation) : List Char :=
  (c.timestamp.getD "").data

/-- `db.reference(path).set(value)` on an association-list dictionary:
upsert at the key (replace if present, append if absent). -/
def dictSet (d : List (String × Conversation)) (k : String) (v : Conversation) :
    List (String × Conversation) :=
  match d with
  | [] => [(k, v)]
  | (k', v') :: rest => if k' = k then (k, v) :: rest else (k', v') :: dictSet rest k v

/-- The record stored by `streamlit_ui.save_user_history_to_firebase`:
prompt/response/mode/language are read with `dict.get` defaults and the
timestamp field is deliberately omitted (the timestamp is only the key). -/
def stripForRemote (c : Conversation) : Conversation where
  timestamp := none
  prompt := some (c.prompt.getD "")
  response := some (c.response.getD "")
  mode := some (c.mode.getD "chat")
  language := some (c.language.getD "en")

/-- `streamlit_ui.save_user_history_to_firebase(uid, conversation)`:
writes the stripped record under the key `datetime.now().isoformat()`
(the `now` argument), acting on the user's conversation dictionary. -/
def save_user_history_to_firebase (now : String) (conversation : Conversation)
    (convs : List (String × Conversation)) : List (String × Conversation) :=
  dictSet convs now (stripForRemote conversation)

/-- The dict comprehension in `firebase_auth.get_user_conversations`:
re-attach each dictionary key as the record's `timestamp` field. -/
def withTs (conversations : List (String × Conversation)) : List Conversation :=
  conversations.map (fun p => { p.2 with timestamp := some p.1 })

/-- One step of insertion into a descending-by-timestamp list. -/
def insertDesc (c : Conversation) : List Conversation → List Conversation
  | [] => [c]
  | d :: rest => if tsKey d ≤ tsKey c then c :: d :: rest else d :: insertDesc c rest

/-- `list.sort(key=lambda x: x['timestamp'], reverse=True)`: sort a list of
records by timestamp string, newest first. -/
def sortDesc : List Conversation → List Conversation
  | [] => []
  | c :: rest => insertDesc c (sortDesc rest)

namespace FirebaseAuth

/-- `firebase_auth.get_user_conversations(uid, limit)`: list the user's
conversation dictionary, re-attach keys as timestamps, sort newest
first, truncate to `limit`. -/
def get_user_conversations (conversations : List (String × Conversation))
    (limit : Nat) : List Conversation :=
  (sortDesc (withTs conversations)).take limit

end FirebaseAuth

/-- `streamlit_ui.load_user_history_from_firebase(uid)`: same as the
auth module's read but without a limit. -/
def load_user_history_from_firebase (conversations : List (String × Conversation)) :
    List Conversation :=
  sortDesc (withTs conversations)

namespace Dashboard

/-- `dashboard.get_user_conversations(uid)`: returns
`list(snapshot.val().values())` — the dictionary's values only, with the
timestamp keys discarded. -/
def get_user_conversations (conversations : List (String × Conversation)) :
    List Conversation :=
  conversations.map Prod.snd

/-- `dashboard.get_all_users()`: the keys of the `users` tree. -/
def get_all_users (remote : List (String × List (String × Conversation))) :
    List String :=
  remote.map Prod.fst

end Dashboard

/-- A local history file: absent, present but not valid JSON, or a
parsed list of records. -/
inductive LocalFile where
  | absent
  | invalid
  | valid (entries : List Conversation)
  deriving DecidableEq

/-- The local disk, as a map from paths to file states. -/
def FileSystem : Type := String → LocalFile

/-- `streamlit_ui.get_user_history_path(user_id)`. -/
def get_user_history_path (user_id : String) : String :=
  "user_histories/chat_history_" ++ user_id ++ ".json"

/-- `streamlit_ui.load_chat_history(user_id)`: missing file and JSON
parse failure both degrade to the empty history. -/
def load_chat_history (fs : FileSystem) (user_id : String) : List Conversation :=
  match fs (get_user_history_path user_id) with
  | .absent => []
  | .invalid => []
  | .valid entries => entries

/-- Point update of the file system. -/
def fsWrite (fs : FileSystem) (path : String) (f : LocalFile) : FileSystem :=
  fun q => if q = path then f else fs q

/-- `streamlit_ui.save_chat_history(history, user_id)`: overwrite the
user's file with the full list. -/
def save_chat_history (fs : FileSystem) (history : List Conversation)
    (user_id : String) : FileSystem :=
  fsWrite fs (get_user_history_path user_id) (.valid history)

/-- The state relevant to one UI session: the signed-in user, the
session history, that user's remote conversation dictionary, and the
local disk. -/
structure AppState where
  user_id : String
  history : List Conversation
  remote : List (String × Conversation)
  fs : FileSystem

/-- The `Reset Chat` / `Delete All` button handlers in
`streamlit_ui.main`: set the session history to `[]` and write the
empty list to the user's local file. Nothing touches `remote`. -/
def delete_all (st : AppState) : AppState where
  user_id := st.user_id
  history := []
  remote := st.remote
  fs := save_chat_history st.fs [] st.user_id

/-- The history initialisation in `streamlit_ui.main` on a fresh
process: non-guest users load from Firebase, the guest loads the local
per-user file. -/
def load_history_on_start (st : AppState) : List Conversation :=
  if st.user_id ≠ "guest" then load_user_history_from_firebase st.remote
  else load_chat_history st.fs st.user_id

/-- The mutable accumulator threaded through the scan loops of
`dashboard.calculate_stats`: the running totals, the two `Counter`s
(as frequency functions), the list `response_lengths`, and the set
`active_users_today` (as a duplicate-free list). -/
structure Acc where
  total_conversations : Nat
  total_messages : Nat
  languages_used : String → Nat
  modes_used : String → Nat
  response_lengths : List Nat
  active : List String

/-- `Counter[k] += 1`. -/
def bump (f : String → Nat) (k : String) : String → Nat :=
  fun k' => if k' = k then f k + 1 else f k'

/-- `set.add(uid)` on a duplicate-free list. -/
def addActive (uid : String) (s : List String) : List String :=
  if uid ∈ s then s else uid :: s

/-- The body of the inner `for conv in conversations` loop of
`calculate_stats` (identical in the Firebase branch and the local
branch): count the message, count `language` and `mode` when the keys
are present, record the length of a non-empty `response`, and mark the
user active when `datetime.fromisoformat(conv.get('timestamp', ''))`
parses (`p`) to today's date. -/
def processConv (p : String → Option String) (today uid : String)
    (acc : Acc) (conv : Conversation) : Acc where
  total_conversations := acc.total_conversations
  total_messages := acc.total_messages + 1
  languages_used :=
    match conv.language with
    | some l => bump acc.languages_used l
    | none => acc.languages_used
  modes_used :=
    match conv.mode with
    | some m => bump acc.modes_used m
    | none => acc.modes_used
  response_lengths :=
    if conv.response.getD "" ≠ "" then
      acc.response_lengths ++ [(conv.response.getD "").length]
    else acc.response_lengths
  active :=
    match p (conv.timestamp.getD "") with
    | some d => if d = today then addActive uid acc.active else acc.active
    | none => acc.active

/-- One iteration of the Firebase branch of `calculate_stats`: read the
user's collection through `Dashboard.get_user_conversations` (values
only), add its size to `total_conversations`, scan each record. -/
def processRemoteUser (p : String → Option String) (today : String)
    (acc : Acc) (u : String × List (String × Conversation)) : Acc :=
  let conversations := Dashboard.get_user_conversations u.2
  let acc1 : Acc := { acc with total_conversations := acc.total_conversations + conversations.length }
  conversations.foldl (processConv p today u.1) acc1

/-- One iteration of the local branch of `calculate_stats`, guarded by
`if not firebase_ok or user_id == 'guest'`. -/
def processLocalUser (p : String → Option String) (today : String)
    (firebase_ok : Bool) (acc : Acc) (u : String × List Conversation) : Acc :=
  if firebase_ok = false ∨ u.1 = "guest" then
    let acc1 : Acc := { acc with total_conversations := acc.total_conversations + u.2.length }
    u.2.foldl (processConv p today u.1) acc1
  else acc

/-- The accumulator before any scanning. -/
def emptyAcc : Acc where
  total_conversations := 0
  total_messages := 0
  languages_used := fun _ => 0
  modes_used := fun _ => 0
  response_lengths := []
  active := []

/-- Both scan loops of `calculate_stats`: the Firebase users (only when
the probe succeeded) followed by the local history files. -/
def scanAcc (p : String → Option String) (today : String) (firebase_ok : Bool)
    (remote : List (String × List (String × Conversation)))
    (localHistories : List (String × List Conversation)) : Acc :=
  let acc0 := if firebase_ok then remote.foldl (processRemoteUser p today) emptyAcc else emptyAcc
  localHistories.foldl (processLocalUser p today firebase_ok) acc0

/-- The record returned by `dashboard.calculate_stats`. -/
structure Stats where
  total_users : Nat
  total_conversations : Nat
  total_messages : Nat
  languages_used : String → Nat
  modes_used : String → Nat
  avg_response_length : Nat
  active_today : Nat
  firebase_enabled : Bool

/-- `dashboard.calculate_stats()`, parametrised by the date parser `p`
(the `datetime.fromisoformat(...).date()` call, `none` on parse
failure), today's date, the probe result, the remote `users` tree and
the parsed local history files. `total_users` is `len(users)` inside
the Firebase branch and is then raised to
`max(total_users, len(local_histories))`; the average response length
is `int(sum/len)` of the collected lengths, `0` when none. -/
def calculate_stats (p : String → Option String) (today : String)
    (firebase_ok : Bool)
    (remote : List (String × List (String × Conversation)))
    (localHistories : List (String × List Conversation)) : Stats :=
  let acc := scanAcc p today firebase_ok remote localHistories
  { total_users :=
      max (if firebase_ok then (Dashboard.get_all_users remote).length else 0)
        localHistories.length
    total_conversations := acc.total_conversations
    total_messages := acc.total_messages
    languages_used := acc.languages_used
    modes_used := acc.modes_used
    avg_response_length :=
      if acc.response_lengths = [] then 0
      else acc.response_lengths.sum / acc.response_lengths.length
    active_today := acc.active.length
    firebase_enabled := firebase_ok }

/-- `dashboard.get_all_local_histories()`: iterate over the matching
local history files in directory-listing order, parsing each with
`json.load`. The whole loop sits in one bare `try/except: pass`, so the
first file whose open or parse raises aborts the loop and the function
returns the histories collected so far — a truncated dict. A file is
`(user_id, some entries)` when it parses and `(user_id, none)` when it
raises. -/
def get_all_local_histories :
    List (String × Option (List Conversation)) → List (String × List Conversation)
  | [] => []
  | (u, some entries) :: rest => (u, entries) :: get_all_local_histories rest
  | (_, none) :: _ => []

/-- One full `dashboard.calculate_stats()` run: list and parse the
local history files with `get_all_local_histories`, then compute the
statistics over the remote tree and the resulting (possibly truncated)
dict. -/
def calculate_stats_run (p : String → Option String) (today : String)
    (firebase_ok : Bool)
    (remote : List (String × List (String × Conversation)))
    (localDir : List (String × Option (List Conversation))) : Stats :=
  calculate_stats p today firebase_ok remote (get_all_local_histories localDir)

/-- The records the Firebase branch of the scan sees, in scan order. -/
def remoteScanned (remote : List (String × List (String × Conversation))) :
    List Conversation :=
  remote.flatMap (fun q => q.2.map Prod.snd)

/-- The records of the local files that pass the
`not firebase_ok or user_id == 'guest'` guard, in scan order. -/
def localScanned (firebase_ok : Bool)
    (localHistories : List (String × List Conversation)) : List Conversation :=
  (localHistories.filter (fun q => firebase_ok = false ∨ q.1 = "guest")).flatMap Prod.snd

/-- The flat list of records the aggregator scans, in scan order: all
remote users' records when the probe succeeded, then the records of
the local files passing the dedup guard. -/
def scannedEntries (firebase_ok : Bool)
    (remote : List (String × List (String × Conversation)))
    (localHistories : List (String × List Conversation)) : List Conversation :=
  (if firebase_ok then remoteScanned remote else []) ++
    localScanned firebase_ok localHistories

/-- Total number of records under the remote `users` tree. -/
def remoteSizes (remote : List (String × List (String × Conversation))) : Nat :=
  (remote.map (fun q => q.2.length)).sum

/-- Total number of records in local files passing the dedup guard. -/
def guardedLocalSizes (firebase_ok : Bool)
    (localHistories : List (String × List Conversation)) : Nat :=
  ((localHistories.filter (fun q => firebase_ok = false ∨ q.1 = "guest")).map
    (fun q => q.2.length)).sum

/-- Number of scanned records whose `language` key is present with
value `l`. -/
def countLang (l : String) (convs : List Conversation) : Nat :=
  (convs.filter (fun c => c.language = some l)).length

/-- Number of scanned records whose `mode` key is present with value
`m`. -/
def countMode (m : String) (convs : List Conversation) : Nat :=
  (convs.filter (fun c => c.mode = some m)).length

/-- The contribution of one record to `response_lengths`. -/
def respLen (c : Conversation) : Option Nat :=
  if c.response.getD "" ≠ "" then some (c.response.getD "").length else none

/-- The record makes its user count as active today: its timestamp
string parses and its date is today's. -/
def activeToday (p : String → Option String) (today : String)
    (c : Conversation) : Prop :=
  p (c.timestamp.getD "") = some today

instance (p : String → Option String) (today : String) (c : Conversation) :
    Decidable (activeToday p today c) := by
  unfold activeToday; infer_instance

/-- Replace the content of `uid`'s local history file. -/
def setLocal (localHistories : List (String × List Conversation)) (uid : String)
    (l₂ : List Conversation) : List (String × List Conversation) :=
  localHistories.map (fun q => if q.1 = uid then (q.1, l₂) else q)

/-- A remote user's persistent state: the profile's
`interaction_count` field (`none` when the field is missing) and the
conversation dictionary. -/
structure RUser where
  profile_count : Option Nat
  convs : List (String × Conversation)
  deriving DecidableEq

/-- `firebase_auth.save_conversation_to_user(uid, conversation)`:
store the record verbatim under the current timestamp, then set
`interaction_count` to `profile.get('interaction_count', 0) + 1`. -/
def save_conversation_to_user (now : String) (conversation : Conversation)
    (st : RUser) : RUser where
  profile_count := some (st.profile_count.getD 0 + 1)
  convs := dictSet st.convs now conversation

/-- `save_user_history_to_firebase` viewed at the level of the whole
remote user state: it writes the conversation entry and leaves the
profile untouched. -/
def save_ui_entry (now : String) (conversation : Conversation) (st : RUser) : RUser where
  profile_count := st.profile_count
  convs := save_user_history_to_firebase now conversation st.convs

/-- One successful append through the remote path: either through
`firebase_auth.save_conversation_to_user` or through the UI's
`streamlit_ui.save_user_history_to_firebase`. -/
inductive RemoteOp where
  | viaProfile (now : String) (conversation : Conversation)
  | viaUI (now : String) (conversation : Conversation)

/-- Whether the append went through `save_conversation_to_user`. -/
def RemoteOp.isProfileAppend : RemoteOp → Bool
  | .viaProfile _ _ => true
  | .viaUI _ _ => false

/-- Apply one remote append. -/
def applyOp (st : RUser) : RemoteOp → RUser
  | .viaProfile now c => save_conversation_to_user now c st
  | .viaUI now c => save_ui_entry now c st

/-- Apply a finite sequence of remote appends, oldest first. -/
def applyOps (ops : List RemoteOp) (st : RUser) : RUser :=
  ops.foldl applyOp st

/-- A conversation dictionary produced by replaying a list of writes
through `save_user_history_to_firebase` in order, starting from an
empty dictionary: the shape of every remote collection whose entries
were all written by the UI's save path. -/
def buildUI (writes : List (String × Conversation)) : List (String × Conversation) :=
  writes.foldl (fun d w => save_user_history_to_firebase w.1 w.2 d) []

/-! ### Lemmas about the sort used by the Firebase read path -/

theorem length_insertDesc (c : Conversation) (l : List Conversation) :
    (insertDesc c l).length = l.length + 1 := by
  induction l with
  | nil => rfl
  | cons d rest ih =>
    simp only [insertDesc]
    split <;> simp [ih]

theorem length_sortDesc (l : List Conversation) : (sortDesc l).length = l.length := by
  induction l with
  | nil => rfl
  | cons c rest ih => simp [sortDesc, length_insertDesc, ih]

theorem mem_insertDesc (y c : Conversation) (l : List Conversation) :
    y ∈ insertDesc c l ↔ y = c ∨ y ∈ l := by
  induction l with
  | nil => simp [insertDesc]
  | cons d rest ih =>
    simp only [insertDesc]
    split
    · simp
    · simp only [List.mem_cons, ih]
      tauto

theorem sorted_insertDesc (c : Conversation) (l : List Conversation)
    (h : l.Pairwise (fun a b => tsKey b ≤ tsKey a)) :
    (insertDesc c l).Pairwise (fun a b => tsKey b ≤ tsKey a) := by
  induction l with
  | nil => simp [insertDesc]
  | cons d rest ih =>
    rw [List.pairwise_cons] at h
    obtain ⟨hd, hrest⟩ := h
    simp only [insertDesc]
    split
    case isTrue hle =>
      rw [List.pairwise_cons]
      refine ⟨fun b hb => ?_, ?_⟩
      · rcases List.mem_cons.mp hb with rfl | hb2
        · exact hle
        · exact le_trans (hd b hb2) hle
      · rw [List.pairwise_cons]
        exact ⟨hd, hrest⟩
    case isFalse hle =>
      rw [List.pairwise_cons]
      refine ⟨fun b hb => ?_, ih hrest⟩
      rcases (mem_insertDesc b c rest).mp hb with rfl | hb2
      · exact le_of_not_le hle
      · exact hd b hb2

theorem sorted_sortDesc (l : List Conversation) :
    (sortDesc l).Pairwise (fun a b => tsKey b ≤ tsKey a) := by
  induction l with
  | nil => simp [sortDesc]
  | cons c rest ih => exact sorted_insertDesc c _ ih

theorem insertDesc_cons_of_lt (c x : Conversation) (rest : List Conversation)
    (h : tsKey x < tsKey c) :
    insertDesc x (c :: rest) = c :: insertDesc x rest := by
  simp only [insertDesc]
  rw [if_neg (not_le.mpr h)]

theorem sortDesc_append_max (l : List Conversation) (c : Conversation)
    (h : ∀ y ∈ l, tsKey y < tsKey c) :
    sortDesc (l ++ [c]) = c :: sortDesc l := by
  induction l with
  | nil => rfl
  | cons x rest ih =>
    simp only [List.cons_append, sortDesc, List.append_eq]
    rw [ih (fun y hy => h y (List.mem_cons_of_mem _ hy))]
    exact insertDesc_cons_of_lt c x _ (h x (List.mem_cons_self x rest))

theorem dictSet_eq_append (d : List (String × Conversation)) (k : String)
    (v : Conversation) (h : ∀ q ∈ d, q.1 ≠ k) :
    dictSet d k v = d ++ [(k, v)] := by
  induction d with
  | nil => rfl
  | cons q rest ih =>
    obtain ⟨k', v'⟩ := q
    simp only [dictSet]
    rw [if_neg (h (k', v') (List.mem_cons_self _ rest)),
      ih (fun q hq => h q (List.mem_cons_of_mem _ hq))]
    rfl

theorem withTs_append (a b : List (String × Conversation)) :
    withTs (a ++ b) = withTs a ++ withTs b := by
  simp [withTs]

theorem tsKey_withTs (q : String × Conversation) :
    tsKey { q.2 with timestamp := some q.1 } = q.1.data := rfl

/-! ### Step lemmas for the aggregator's inner loop -/

theorem countLang_cons (l : String) (c : Conversation) (cs : List Conversation) :
    countLang l (c :: cs) = (if c.language = some l then 1 else 0) + countLang l cs := by
  simp only [countLang, List.filter_cons]
  by_cases h : c.language = some l <;> simp [h, Nat.add_comm]

theorem countLang_append (l : String) (a b : List Conversation) :
    countLang l (a ++ b) = countLang l a + countLang l b := by
  simp [countLang, List.filter_append]

theorem countMode_cons (m : String) (c : Conversation) (cs : List Conversation) :
    countMode m (c :: cs) = (if c.mode = some m then 1 else 0) + countMode m cs := by
  simp only [countMode, List.filter_cons]
  by_cases h : c.mode = some m <;> simp [h, Nat.add_comm]

theorem countMode_append (m : String) (a b : List Conversation) :
    countMode m (a ++ b) = countMode m a + countMode m b := by
  simp [countMode, List.filter_append]

theorem mem_addActive (v u : String) (s : List String) :
    v ∈ addActive u s ↔ v = u ∨ v ∈ s := by
  by_cases h : u ∈ s
  · simp only [addActive, if_pos h]
    exact ⟨fun hv => Or.inr hv, fun hv => hv.elim (fun he => he ▸ h) id⟩
  · simp [addActive, h]

theorem addActive_idem (u : String) (s : List String) :
    addActive u (addActive u s) = addActive u s := by
  by_cases h : u ∈ s
  · simp [addActive, h]
  · simp [addActive, h]

theorem processConv_messages (p : String → Option String) (today uid : String)
    (acc : Acc) (c : Conversation) :
    (processConv p today uid acc c).total_messages = acc.total_messages + 1 := rfl

theorem processConv_conversations (p : String → Option String) (today uid : String)
    (acc : Acc) (c : Conversation) :
    (processConv p today uid acc c).total_conversations = acc.total_conversations := rfl

theorem processConv_languages (p : String → Option String) (today uid : String)
    (acc : Acc) (c : Conversation) (l : String) :
    (processConv p today uid acc c).languages_used l
      = acc.languages_used l + (if c.language = some l then 1 else 0) := by
  simp only [processConv]
  rcases hl : c.language with _ | k
  · simp [hl]
  · by_cases he : k = l
    · subst he
      simp [bump]
    · simp [bump, he, fun h : k = l => he h]
      intro h
      exact absurd h.symm he

theorem processConv_modes (p : String → Option String) (today uid : String)
    (acc : Acc) (c : Conversation) (m : String) :
    (processConv p today uid acc c).modes_used m
      = acc.modes_used m + (if c.mode = some m then 1 else 0) := by
  simp only [processConv]
  rcases hm : c.mode with _ | k
  · simp [hm]
  · by_cases he : k = m
    · subst he
      simp [bump]
    · simp [bump, he]
      intro h
      exact absurd h.symm he

theorem processConv_rl (p : String → Option String) (today uid : String)
    (acc : Acc) (c : Conversation) :
    (processConv p today uid acc c).response_lengths
      = acc.response_lengths ++ (respLen c).toList := by
  simp only [processConv, respLen]
  by_cases h : c.response.getD "" ≠ "" <;> simp [h]

theorem processConv_active (p : String → Option String) (today uid : String)
    (acc : Acc) (c : Conversation) :
    (processConv p today uid acc c).active
      = if activeToday p today c then addActive uid acc.active else acc.active := by
  simp only [processConv, activeToday]
  split
  · rename_i d heq
    simp only [heq]
    by_cases hd : d = today
    · subst hd
      simp
    · simp [hd]
  · rename_i heq
    simp only [heq]
    simp

/-! ### Fold lemmas over one collection of records -/

theorem foldl_pc_messages (p : String → Option String) (today uid : String)
    (convs : List Conversation) (acc : Acc) :
    (convs.foldl (processConv p today uid) acc).total_messages
      = acc.total_messages + convs.length := by
  induction convs generalizing acc with
  | nil => simp
  | cons c cs ih => simp [ih, processConv_messages, Nat.add_assoc, Nat.add_comm 1 _]

theorem foldl_pc_conversations (p : String → Option String) (today uid : String)
    (convs : List Conversation) (acc : Acc) :
    (convs.foldl (processConv p today uid) acc).total_conversations
      = acc.total_conversations := by
  induction convs generalizing acc with
  | nil => rfl
  | cons c cs ih => simp [ih, processConv_conversations]

theorem foldl_pc_languages (p : String → Option String) (today uid : String)
    (convs : List Conversation) (acc : Acc) (l : String) :
    (convs.foldl (processConv p today uid) acc).languages_used l
      = acc.languages_used l + countLang l convs := by
  induction convs generalizing acc with
  | nil => simp [countLang]
  | cons c cs ih =>
    simp [ih, processConv_languages, countLang_cons, Nat.add_assoc]

theorem foldl_pc_modes (p : String → Option String) (today uid : String)
    (convs : List Conversation) (acc : Acc) (m : String) :
    (convs.foldl (processConv p today uid) acc).modes_used m
      = acc.modes_used m + countMode m convs := by
  induction convs generalizing acc with
  | nil => simp [countMode]
  | cons c cs ih =>
    simp [ih, processConv_modes, countMode_cons, Nat.add_assoc]

theorem foldl_pc_rl (p : String → Option String) (today uid : String)
    (convs : List Conversation) (acc : Acc) :
    (convs.foldl (processConv p today uid) acc).response_lengths
      = acc.response_lengths ++ convs.filterMap respLen := by
  induction convs generalizing acc with
  | nil => simp
  | cons c cs ih =>
    rw [List.foldl_cons, ih, processConv_rl, List.filterMap_cons]
    rcases h : respLen c with _ | n <;> simp [h, Option.toList]

theorem foldl_pc_active (p : String → Option String) (today uid : String)
    (convs : List Conversation) (acc : Acc) :
    (convs.foldl (processConv p today uid) acc).active
      = if (∃ c ∈ convs, activeToday p today c) then addActive uid acc.active
        else acc.active := by
  induction convs generalizing acc with
  | nil => simp
  | cons c cs ih =>
    rw [List.foldl_cons, ih, processConv_active]
    by_cases hc : activeToday p today c <;>
      by_cases hcs : ∃ x ∈ cs, activeToday p today x <;>
        simp [hc, hcs, addActive_idem]

/-! ### Lemmas about one iteration of the Firebase scan loop -/

theorem processRemoteUser_messages (p : String → Option String) (today : String)
    (acc : Acc) (q : String × List (String × Conversation)) :
    (processRemoteUser p today acc q).total_messages
      = acc.total_messages + q.2.length := by
  simp [processRemoteUser, Dashboard.get_user_conversations, foldl_pc_messages]

theorem processRemoteUser_conversations (p : String → Option String) (today : String)
    (acc : Acc) (q : String × List (String × Conversation)) :
    (processRemoteUser p today acc q).total_conversations
      = acc.total_conversations + q.2.length := by
  simp [processRemoteUser, Dashboard.get_user_conversations, foldl_pc_conversations]

theorem processRemoteUser_languages (p : String → Option String) (today : String)
    (acc : Acc) (q : String × List (String × Conversation)) (l : String) :
    (processRemoteUser p today acc q).languages_used l
      = acc.languages_used l + countLang l (q.2.map Prod.snd) := by
  simp [processRemoteUser, Dashboard.get_user_conversations, foldl_pc_languages]

theorem processRemoteUser_modes (p : String → Option String) (today : String)
    (acc : Acc) (q : String × List (String × Conversation)) (m : String) :
    (processRemoteUser p today acc q).modes_used m
      = acc.modes_used m + countMode m (q.2.map Prod.snd) := by
  simp [processRemoteUser, Dashboard.get_user_conversations, foldl_pc_modes]

theorem processRemoteUser_rl (p : String → Option String) (today : String)
    (acc : Acc) (q : String × List (String × Conversation)) :
    (processRemoteUser p today acc q).response_lengths
      = acc.response_lengths ++ (q.2.map Prod.snd).filterMap respLen := by
  simp [processRemoteUser, Dashboard.get_user_conversations, foldl_pc_rl]

theorem processRemoteUser_active (p : String → Option String) (today : String)
    (acc : Acc) (q : String × List (String × Conversation)) :
    (processRemoteUser p today acc q).active
      = if (∃ kc ∈ q.2, activeToday p today kc.2) then addActive q.1 acc.active
        else acc.active := by
  simp only [processRemoteUser, Dashboard.get_user_conversations]
  rw [foldl_pc_active]
  rcases Classical.em (∃ kc ∈ q.2, activeToday p today kc.2) with h | h
  · rw [if_pos, if_pos h]
    obtain ⟨kc, hkc, ha⟩ := h
    exact ⟨kc.2, List.mem_map_of_mem _ hkc, ha⟩
  · rw [if_neg, if_neg h]
    rintro ⟨c, hc, ha⟩
    obtain ⟨kc, hkc, rfl⟩ := List.mem_map.mp hc
    exact h ⟨kc, hkc, ha⟩

/-! ### Fold lemmas over the Firebase users -/

theorem remoteSizes_cons (q : String × List (String × Conversation))
    (rest : List (String × List (String × Conversation))) :
    remoteSizes (q :: rest) = q.2.length + remoteSizes rest := by
  simp [remoteSizes]

theorem foldl_remote_messages (p : String → Option String) (today : String)
    (remote : List (String × List (String × Conversation))) (acc : Acc) :
    (remote.foldl (processRemoteUser p today) acc).total_messages
      = acc.total_messages + remoteSizes remote := by
  induction remote generalizing acc with
  | nil => simp [remoteSizes]
  | cons q rest ih =>
    simp [ih, processRemoteUser_messages, remoteSizes_cons, Nat.add_assoc]

theorem foldl_remote_conversations (p : String → Option String) (today : String)
    (remote : List (String × List (String × Conversation))) (acc : Acc) :
    (remote.foldl (processRemoteUser p today) acc).total_conversations
      = acc.total_conversations + remoteSizes remote := by
  induction remote generalizing acc with
  | nil => simp [remoteSizes]
  | cons q rest ih =>
    simp [ih, processRemoteUser_conversations, remoteSizes_cons, Nat.add_assoc]

theorem foldl_remote_languages (p : String → Option String) (today : String)
    (remote : List (String × List (String × Conversation))) (acc : Acc) (l : String) :
    (remote.foldl (processRemoteUser p today) acc).languages_used l
      = acc.languages_used l + countLang l (remoteScanned remote) := by
  induction remote generalizing acc with
  | nil => simp [countLang, remoteScanned]
  | cons q rest ih =>
    simp [ih, processRemoteUser_languages, remoteScanned, countLang_append, Nat.add_assoc]

theorem foldl_remote_modes (p : String → Option String) (today : String)
    (remote : List (String × List (String × Conversation))) (acc : Acc) (m : String) :
    (remote.foldl (processRemoteUser p today) acc).modes_used m
      = acc.modes_used m + countMode m (remoteScanned remote) := by
  induction remote generalizing acc with
  | nil => simp [countMode, remoteScanned]
  | cons q rest ih =>
    simp [ih, processRemoteUser_modes, remoteScanned, countMode_append, Nat.add_assoc]

theorem foldl_remote_rl (p : String → Option String) (today : String)
    (remote : List (String × List (String × Conversation))) (acc : Acc) :
    (remote.foldl (processRemoteUser p today) acc).response_lengths
      = acc.response_lengths ++ (remoteScanned remote).filterMap respLen := by
  induction remote generalizing acc with
  | nil => simp [remoteScanned]
  | cons q rest ih =>
    simp [ih, processRemoteUser_rl, remoteScanned, List.filterMap_append]

theorem foldl_remote_active (p : String → Option String) (today : String)
    (remote : List (String × List (String × Conversation))) (acc : Acc) (u : String) :
    u ∈ (remote.foldl (processRemoteUser p today) acc).active
      ↔ (∃ q ∈ remote, q.1 = u ∧ ∃ kc ∈ q.2, activeToday p today kc.2)
        ∨ u ∈ acc.active := by
  induction remote generalizing acc with
  | nil => simp
  | cons q rest ih =>
    rw [List.foldl_cons, ih, processRemoteUser_active]
    by_cases h : ∃ kc ∈ q.2, activeToday p today kc.2
    · rw [if_pos h]
      simp only [mem_addActive, List.mem_cons]
      constructor
      · rintro (⟨q', hq', hrest⟩ | (rfl | hacc))
        · exact Or.inl ⟨q', Or.inr hq', hrest⟩
        · exact Or.inl ⟨q, Or.inl rfl, rfl, h⟩
        · exact Or.inr hacc
      · rintro (⟨q', (rfl | hq'), hu, hrest⟩ | hacc)
        · exact Or.inr (Or.inl hu.symm)
        · exact Or.inl ⟨q', hq', hu, hrest⟩
        · exact Or.inr (Or.inr hacc)
    · rw [if_neg h]
      simp only [List.mem_cons]
      constructor
      · rintro (⟨q', hq', hrest⟩ | hacc)
        · exact Or.inl ⟨q', Or.inr hq', hrest⟩
        · exact Or.inr hacc
      · rintro (⟨q', (rfl | hq'), hu, hrest⟩ | hacc)
        · exact absurd hrest h
        · exact Or.inl ⟨q', hq', hu, hrest⟩
        · exact Or.inr hacc

/-! ### Lemmas about one iteration of the local scan loop -/

theorem processLocalUser_messages (p : String → Option String) (today : String)
    (ok : Bool) (acc : Acc) (u : String × List Conversation) :
    (processLocalUser p today ok acc u).total_messages
      = acc.total_messages + (if ok = false ∨ u.1 = "guest" then u.2.length else 0) := by
  by_cases h : ok = false ∨ u.1 = "guest" <;>
    simp [processLocalUser, h, foldl_pc_messages]

theorem processLocalUser_conversations (p : String → Option String) (today : String)
    (ok : Bool) (acc : Acc) (u : String × List Conversation) :
    (processLocalUser p today ok acc u).total_conversations
      = acc.total_conversations + (if ok = false ∨ u.1 = "guest" then u.2.length else 0) := by
  by_cases h : ok = false ∨ u.1 = "guest" <;>
    simp [processLocalUser, h, foldl_pc_conversations]

theorem processLocalUser_languages (p : String → Option String) (today : String)
    (ok : Bool) (acc : Acc) (u : String × List Conversation) (l : String) :
    (processLocalUser p today ok acc u).languages_used l
      = acc.languages_used l
        + countLang l (if ok = false ∨ u.1 = "guest" then u.2 else []) := by
  by_cases h : ok = false ∨ u.1 = "guest" <;>
    simp [processLocalUser, h, foldl_pc_languages, countLang]

theorem processLocalUser_modes (p : String → Option String) (today : String)
    (ok : Bool) (acc : Acc) (u : String × List Conversation) (m : String) :
    (processLocalUser p today ok acc u).modes_used m
      = acc.modes_used m
        + countMode m (if ok = false ∨ u.1 = "guest" then u.2 else []) := by
  by_cases h : ok = false ∨ u.1 = "guest" <;>
    simp [processLocalUser, h, foldl_pc_modes, countMode]

theorem processLocalUser_rl (p : String → Option String) (today : String)
    (ok : Bool) (acc : Acc) (u : String × List Conversation) :
    (processLocalUser p today ok acc u).response_lengths
      = acc.response_lengths
        ++ ((if ok = false ∨ u.1 = "guest" then u.2 else []).filterMap respLen) := by
  by_cases h : ok = false ∨ u.1 = "guest" <;>
    simp [processLocalUser, h, foldl_pc_rl]

theorem processLocalUser_active (p : String → Option String) (today : String)
    (ok : Bool) (acc : Acc) (u : String × List Conversation) :
    (processLocalUser p today ok acc u).active
      = if (ok = false ∨ u.1 = "guest") ∧ (∃ c ∈ u.2, activeToday p today c)
        then addActive u.1 acc.active else acc.active := by
  by_cases h : ok = false ∨ u.1 = "guest"
  · simp only [processLocalUser, if_pos h]
    rw [foldl_pc_active]
    by_cases h2 : ∃ c ∈ u.2, activeToday p today c
    · rw [if_pos h2, if_pos ⟨h, h2⟩]
    · rw [if_neg h2, if_neg (fun hh => h2 hh.2)]
  · simp only [processLocalUser, if_neg h]
    rw [if_neg (fun hh => h hh.1)]

/-! ### Fold lemmas over the local history files -/

theorem guardedLocalSizes_cons (ok : Bool) (q : String × List Conversation)
    (rest : List (String × List Conversation)) :
    guardedLocalSizes ok (q :: rest)
      = (if ok = false ∨ q.1 = "guest" then q.2.length else 0)
        + guardedLocalSizes ok rest := by
  by_cases h : ok = false ∨ q.1 = "guest" <;>
    simp [guardedLocalSizes, List.filter_cons, h]

theorem localScanned_cons (ok : Bool) (q : String × List Conversation)
    (rest : List (String × List Conversation)) :
    localScanned ok (q :: rest)
      = (if ok = false ∨ q.1 = "guest" then q.2 else []) ++ localScanned ok rest := by
  by_cases h : ok = false ∨ q.1 = "guest" <;>
    simp [localScanned, List.filter_cons, h]

theorem foldl_local_messages (p : String → Option String) (today : String)
    (ok : Bool) (localHistories : List (String × List Conversation)) (acc : Acc) :
    (localHistories.foldl (processLocalUser p today ok) acc).total_messages
      = acc.total_messages + guardedLocalSizes ok localHistories := by
  induction localHistories generalizing acc with
  | nil => simp [guardedLocalSizes]
  | cons q rest ih =>
    simp [ih, processLocalUser_messages, guardedLocalSizes_cons, Nat.add_assoc]

theorem foldl_local_conversations (p : String → Option String) (today : String)
    (ok : Bool) (localHistories : List (String × List Conversation)) (acc : Acc) :
    (localHistories.foldl (processLocalUser p today ok) acc).total_conversations
      = acc.total_conversations + guardedLocalSizes ok localHistories := by
  induction localHistories generalizing acc with
  | nil => simp [guardedLocalSizes]
  | cons q rest ih =>
    simp [ih, processLocalUser_conversations, guardedLocalSizes_cons, Nat.add_assoc]

theorem foldl_local_languages (p : String → Option String) (today : String)
    (ok : Bool) (localHistories : List (String × List Conversation)) (acc : Acc)
    (l : String) :
    (localHistories.foldl (processLocalUser p today ok) acc).languages_used l
      = acc.languages_used l + countLang l (localScanned ok localHistories) := by
  induction localHistories generalizing acc with
  | nil => simp [countLang, localScanned]
  | cons q rest ih =>
    simp [ih, processLocalUser_languages, localScanned_cons, countLang_append,
      Nat.add_assoc]

theorem foldl_local_modes (p : String → Option String) (today : String)
    (ok : Bool) (localHistories : List (String × List Conversation)) (acc : Acc)
    (m : String) :
    (localHistories.foldl (processLocalUser p today ok) acc).modes_used m
      = acc.modes_used m + countMode m (localScanned ok localHistories) := by
  induction localHistories generalizing acc with
  | nil => simp [countMode, localScanned]
  | cons q rest ih =>
    simp [ih, processLocalUser_modes, localScanned_cons, countMode_append,
      Nat.add_assoc]

theorem foldl_local_rl (p : String → Option String) (today : String)
    (ok : Bool) (localHistories : List (String × List Conversation)) (acc : Acc) :
    (localHistories.foldl (processLocalUser p today ok) acc).response_lengths
      = acc.response_lengths ++ (localScanned ok localHistories).filterMap respLen := by
  induction localHistories generalizing acc with
  | nil => simp [localScanned]
  | cons q rest ih =>
    simp [ih, processLocalUser_rl, localScanned_cons, List.filterMap_append]

theorem foldl_local_active (p : String → Option String) (today : String)
    (ok : Bool) (localHistories : List (String × List Conversation)) (acc : Acc)
    (u : String) :
    u ∈ (localHistories.foldl (processLocalUser p today ok) acc).active
      ↔ (∃ q ∈ localHistories, q.1 = u ∧ (ok = false ∨ q.1 = "guest")
          ∧ ∃ c ∈ q.2, activeToday p today c)
        ∨ u ∈ acc.active := by
  induction localHistories generalizing acc with
  | nil => simp
  | cons q rest ih =>
    rw [List.foldl_cons, ih, processLocalUser_active]
    by_cases h : (ok = false ∨ q.1 = "guest") ∧ ∃ c ∈ q.2, activeToday p today c
    · rw [if_pos h]
      simp only [mem_addActive, List.mem_cons]
      constructor
      · rintro (⟨q', hq', hrest⟩ | (rfl | hacc))
        · exact Or.inl ⟨q', Or.inr hq', hrest⟩
        · exact Or.inl ⟨q, Or.inl rfl, rfl, h.1, h.2⟩
        · exact Or.inr hacc
      · rintro (⟨q', (rfl | hq'), hu, hg, hrest⟩ | hacc)
        · exact Or.inr (Or.inl hu.symm)
        · exact Or.inl ⟨q', hq', hu, hg, hrest⟩
        · exact Or.inr (Or.inr hacc)
    · rw [if_neg h]
      simp only [List.mem_cons]
      constructor
      · rintro (⟨q', hq', hrest⟩ | hacc)
        · exact Or.inl ⟨q', Or.inr hq', hrest⟩
        · exact Or.inr hacc
      · rintro (⟨q', (rfl | hq'), hu, hg, hrest⟩ | hacc)
        · exact absurd ⟨hg, hrest⟩ h
        · exact Or.inl ⟨q', hq', hu, hg, hrest⟩
        · exact Or.inr hacc

/-! ### Characterisation of the whole scan -/

theorem length_remoteScanned (remote : List (String × List (String × Conversation))) :
    (remoteScanned remote).length = remoteSizes remote := by
  simp [remoteScanned, remoteSizes, Function.comp_def]

theorem length_localScanned (ok : Bool)
    (localHistories : List (String × List Conversation)) :
    (localScanned ok localHistories).length = guardedLocalSizes ok localHistories := by
  induction localHistories with
  | nil => rfl
  | cons q rest ih =>
    rw [localScanned_cons, guardedLocalSizes_cons, List.length_append, ih]
    by_cases h : ok = false ∨ q.1 = "guest" <;> simp [h]

theorem length_scannedEntries (ok : Bool)
    (remote : List (String × List (String × Conversation)))
    (localHistories : List (String × List Conversation)) :
    (scannedEntries ok remote localHistories).length
      = (if ok then remoteSizes remote else 0) + guardedLocalSizes ok localHistories := by
  rw [scannedEntries, List.length_append, length_localScanned]
  cases ok <;> simp [length_remoteScanned]

theorem scanAcc_messages (p : String → Option String) (today : String) (ok : Bool)
    (remote : List (String × List (String × Conversation)))
    (localHistories : List (String × List Conversation)) :
    (scanAcc p today ok remote localHistories).total_messages
      = (scannedEntries ok remote localHistories).length := by
  rw [length_scannedEntries, scanAcc, foldl_local_messages]
  cases ok <;> simp [foldl_remote_messages, emptyAcc]

theorem scanAcc_conversations (p : String → Option String) (today : String) (ok : Bool)
    (remote : List (String × List (String × Conversation)))
    (localHistories : List (String × List Conversation)) :
    (scanAcc p today ok remote localHistories).total_conversations
      = (scannedEntries ok remote localHistories).length := by
  rw [length_scannedEntries, scanAcc, foldl_local_conversations]
  cases ok <;> simp [foldl_remote_conversations, emptyAcc]

theorem scanAcc_languages (p : String → Option String) (today : String) (ok : Bool)
    (remote : List (String × List (String × Conversation)))
    (localHistories : List (String × List Conversation)) (l : String) :
    (scanAcc p today ok remote localHistories).languages_used l
      = countLang l (scannedEntries ok remote localHistories) := by
  rw [scanAcc, foldl_local_languages, scannedEntries, countLang_append]
  cases ok <;> simp [foldl_remote_languages, emptyAcc, countLang]

theorem scanAcc_modes (p : String → Option String) (today : String) (ok : Bool)
    (remote : List (String × List (String × Conversation)))
    (localHistories : List (String × List Conversation)) (m : String) :
    (scanAcc p today ok remote localHistories).modes_used m
      = countMode m (scannedEntries ok remote localHistories) := by
  rw [scanAcc, foldl_local_modes, scannedEntries, countMode_append]
  cases ok <;> simp [foldl_remote_modes, emptyAcc, countMode]

theorem scanAcc_rl (p : String → Option String) (today : String) (ok : Bool)
    (remote : List (String × List (String × Conversation)))
    (localHistories : List (String × List Conversation)) :
    (scanAcc p today ok remote localHistories).response_lengths
      = (scannedEntries ok remote localHistories).filterMap respLen := by
  rw [scanAcc, foldl_local_rl, scannedEntries, List.filterMap_append]
  cases ok <;> simp [foldl_remote_rl, emptyAcc]

theorem scanAcc_active (p : String → Option String) (today : String) (ok : Bool)
    (remote : List (String × List (String × Conversation)))
    (localHistories : List (String × List Conversation)) (u : String) :
    u ∈ (scanAcc p today ok remote localHistories).active
      ↔ (ok = true ∧ ∃ q ∈ remote, q.1 = u ∧ ∃ kc ∈ q.2, activeToday p today kc.2)
        ∨ (∃ q ∈ localHistories, q.1 = u ∧ (ok = false ∨ q.1 = "guest")
            ∧ ∃ c ∈ q.2, activeToday p today c) := by
  rw [scanAcc, foldl_local_active]
  cases ok
  · simp [emptyAcc]
  · rw [if_pos rfl, foldl_remote_active]
    constructor
    · rintro (hL | hR | hnil)
      · exact Or.inr hL
      · exact Or.inl ⟨rfl, hR⟩
      · exact absurd hnil (List.not_mem_nil u)
    · rintro (⟨-, hR⟩ | hL)
      · exact Or.inr (Or.inl hR)
      · exact Or.inl hL

/-! ### Projections of `calculate_stats` onto the scan accumulator -/

theorem calculate_stats_messages (p : String → Option String) (today : String)
    (ok : Bool) (remote : List (String × List (String × Conversation)))
    (localHistories : List (String × List Conversation)) :
    (calculate_stats p today ok remote localHistories).total_messages
      = (scanAcc p today ok remote localHistories).total_messages := rfl

theorem calculate_stats_conversations (p : String → Option String) (today : String)
    (ok : Bool) (remote : List (String × List (String × Conversation)))
    (localHistories : List (String × List Conversation)) :
    (calculate_stats p today ok remote localHistories).total_conversations
      = (scanAcc p today ok remote localHistories).total_conversations := rfl

theorem calculate_stats_languages (p : String → Option String) (today : String)
    (ok : Bool) (remote : List (String × List (String × Conversation)))
    (localHistories : List (String × List Conversation)) :
    (calculate_stats p today ok remote localHistories).languages_used
      = (scanAcc p today ok remote localHistories).languages_used := rfl

theorem calculate_stats_modes (p : String → Option String) (today : String)
    (ok : Bool) (remote : List (String × List (String × Conversation)))
    (localHistories : List (String × List Conversation)) :
    (calculate_stats p today ok remote localHistories).modes_used
      = (scanAcc p today ok remote localHistories).modes_used := rfl

theorem calculate_stats_avg (p : String → Option String) (today : String)
    (ok : Bool) (remote : List (String × List (String × Conversation)))
    (localHistories : List (String × List Conversation)) :
    (calculate_stats p today ok remote localHistories).avg_response_length
      = (if (scanAcc p today ok remote localHistories).response_lengths = [] then 0
         else (scanAcc p today ok remote localHistories).response_lengths.sum
           / (scanAcc p today ok remote localHistories).response_lengths.length) := rfl

theorem calculate_stats_active (p : String → Option String) (today : String)
    (ok : Bool) (remote : List (String × List (String × Conversation)))
    (localHistories : List (String × List Conversation)) :
    (calculate_stats p today ok remote localHistories).active_today
      = (scanAcc p today ok remote localHistories).active.length := rfl

/-! ### Helpers for the claim theorems -/

theorem mem_dictSet (d : List (String × Conversation)) (k : String)
    (v : Conversation) (kc : String × Conversation) (h : kc ∈ dictSet d k v) :
    kc = (k, v) ∨ kc ∈ d := by
  induction d with
  | nil => simpa [dictSet] using h
  | cons q rest ih =>
    obtain ⟨k', v'⟩ := q
    simp only [dictSet] at h
    split at h
    · rcases List.mem_cons.mp h with rfl | h2
      · exact Or.inl rfl
      · exact Or.inr (List.mem_cons_of_mem _ h2)
    · rcases List.mem_cons.mp h with rfl | h2
      · exact Or.inr (List.mem_cons_self _ _)
      · rcases ih h2 with h3 | h3
        · exact Or.inl h3
        · exact Or.inr (List.mem_cons_of_mem _ h3)

theorem foldl_saveUI_timestamp_none (writes : List (String × Conversation))
    (d : List (String × Conversation))
    (hd : ∀ kc ∈ d, kc.2.timestamp = none) :
    ∀ kc ∈ writes.foldl (fun d w => save_user_history_to_firebase w.1 w.2 d) d,
      kc.2.timestamp = none := by
  induction writes generalizing d with
  | nil => exact hd
  | cons w rest ih =>
    rw [List.foldl_cons]
    apply ih
    intro kc hkc
    rcases mem_dictSet _ _ _ _ hkc with rfl | hkc2
    · rfl
    · exact hd kc hkc2

theorem buildUI_timestamp_none (writes : List (String × Conversation)) :
    ∀ kc ∈ buildUI writes, kc.2.timestamp = none :=
  foldl_saveUI_timestamp_none writes [] (by simp)

theorem setLocal_cons (q : String × List Conversation)
    (rest : List (String × List Conversation)) (uid : String)
    (l₂ : List Conversation) :
    setLocal (q :: rest) uid l₂
      = (if q.1 = uid then (q.1, l₂) else q) :: setLocal rest uid l₂ := rfl

theorem foldl_setLocal (p : String → Option String) (today uid : String)
    (l₂ : List Conversation) (localHistories : List (String × List Conversation))
    (acc : Acc) (hguest : uid ≠ "guest") :
    (setLocal localHistories uid l₂).foldl (processLocalUser p today true) acc
      = localHistories.foldl (processLocalUser p today true) acc := by
  induction localHistories generalizing acc with
  | nil => rfl
  | cons q rest ih =>
    rw [setLocal_cons, List.foldl_cons, List.foldl_cons]
    by_cases h : q.1 = uid
    · have hng : ¬ ((true : Bool) = false ∨ q.1 = "guest") := by
        rintro (hf | hg)
        · exact absurd hf (by decide)
        · exact hguest (h.symm.trans hg)
      rw [if_pos h]
      have e1 : processLocalUser p today true acc (q.1, l₂) = acc := by
        simp only [processLocalUser, if_neg hng]
      have e2 : processLocalUser p today true acc q = acc := by
        simp only [processLocalUser, if_neg hng]
      rw [e1, e2, ih]
    · rw [if_neg h, ih]

theorem applyOps_profile_count (ops : List RemoteOp) (st : RUser) :
    (applyOps ops st).profile_count.getD 0
      = st.profile_count.getD 0 + ops.countP RemoteOp.isProfileAppend := by
  induction ops generalizing st with
  | nil => simp [applyOps]
  | cons o rest ih =>
    have step : applyOps (o :: rest) st = applyOps rest (applyOp st o) := rfl
    rw [step, ih]
    cases o with
    | viaProfile now c =>
      simp [applyOp, save_conversation_to_user, RemoteOp.isProfileAppend,
        List.countP_cons, Nat.add_assoc, Nat.add_comm]
    | viaUI now c =>
      simp [applyOp, save_ui_entry, RemoteOp.isProfileAppend, List.countP_cons]

/-! ### Claim theorems -/

/-- C1: dedup of the aggregator. When the remote probe succeeded and a
non-guest id exists on both backends, the statistics are entirely
independent of that id's local file content (replacing it by any other
list changes nothing), and the total message count decomposes as the
remote collection sizes plus only the guard-passing local sizes — the
dual-backend id contributes exactly its remote collection size
(`rconvs.length`), never the sum of remote and local sizes. -/
theorem C1_dedup (p : String → Option String) (today uid : String)
    (pre post : List (String × List (String × Conversation)))
    (rconvs : List (String × Conversation))
    (localHistories : List (String × List Conversation)) (l₂ : List Conversation)
    (hguest : uid ≠ "guest") :
    calculate_stats p today true (pre ++ (uid, rconvs) :: post)
        (setLocal localHistories uid l₂)
      = calculate_stats p today true (pre ++ (uid, rconvs) :: post) localHistories
    ∧ (calculate_stats p today true (pre ++ (uid, rconvs) :: post)
        localHistories).total_messages
      = remoteSizes pre + rconvs.length + remoteSizes post
        + guardedLocalSizes true localHistories := by
  constructor
  · simp only [calculate_stats, scanAcc]
    rw [foldl_setLocal p today uid l₂ localHistories _ hguest]
    simp [setLocal]
  · rw [calculate_stats_messages, scanAcc_messages, length_scannedEntries, if_pos rfl]
    simp only [remoteSizes, List.map_append, List.map_cons, List.sum_append,
      List.sum_cons]
    ring

/-- C1 witness at a concrete input: id `u1` is on both backends, the
probe succeeded, and the reported total message count is the remote
size (1) plus the guest-guarded local sizes (0 — `u1`'s two local
records are not counted). -/
theorem C1_dedup_witness :
    (calculate_stats (fun _ => none) "2025-01-02" true
        [("u1", [("2025-01-01T00:00:00",
          Conversation.mk none (some "q") (some "a") (some "chat") (some "en"))])]
        [("u1", [Conversation.mk (some "2025-01-01T00:00:00") (some "q") (some "a")
            (some "chat") (some "en"),
          Conversation.mk (some "2025-01-01T00:00:01") (some "q2") (some "a2")
            (some "chat") (some "en")])]).total_messages
      = remoteSizes [] + 1 + remoteSizes []
        + guardedLocalSizes true
            [("u1", [Conversation.mk (some "2025-01-01T00:00:00") (some "q") (some "a")
                (some "chat") (some "en"),
              Conversation.mk (some "2025-01-01T00:00:01") (some "q2") (some "a2")
                (some "chat") (some "en")])] :=
  (C1_dedup (fun _ => none) "2025-01-02" "u1" [] []
    [("2025-01-01T00:00:00",
      Conversation.mk none (some "q") (some "a") (some "chat") (some "en"))]
    [("u1", [Conversation.mk (some "2025-01-01T00:00:00") (some "q") (some "a")
        (some "chat") (some "en"),
      Conversation.mk (some "2025-01-01T00:00:01") (some "q2") (some "a2")
        (some "chat") (some "en")])]
    [] (by decide)).2

/-- C2 counterexample: one successful append through the remote path
of the UI (`save_user_history_to_firebase`) starting from a profile
with `interaction_count = 0` leaves the counter at `0` although one
conversation entry was appended, so the counter does not equal the
number of entries appended via the remote path. -/
theorem C2_counterexample :
    (applyOps [RemoteOp.viaUI "2025-01-01T00:00:01"
        (Conversation.mk (some "2025-01-01T00:00:00") (some "p") (some "r")
          (some "chat") (some "en"))]
      (RUser.mk (some 0) [])).convs.length = 1
    ∧ (applyOps [RemoteOp.viaUI "2025-01-01T00:00:01"
        (Conversation.mk (some "2025-01-01T00:00:00") (some "p") (some "r")
          (some "chat") (some "en"))]
      (RUser.mk (some 0) [])).profile_count.getD 0 = 0
    ∧ (applyOps [RemoteOp.viaUI "2025-01-01T00:00:01"
        (Conversation.mk (some "2025-01-01T00:00:00") (some "p") (some "r")
          (some "chat") (some "en"))]
      (RUser.mk (some 0) [])).profile_count.getD 0 ≠ 1 := by
  decide

/-- C2 (amended): after any finite sequence of successful remote
appends, `interaction_count` equals its initial value plus the number
of appends that went through `firebase_auth.save_conversation_to_user`;
appends through the UI's `save_user_history_to_firebase` leave it
unchanged, and no append ever decreases it. -/
theorem C2_amended_interaction_count (ops : List RemoteOp) (st : RUser) :
    (applyOps ops st).profile_count.getD 0
      = st.profile_count.getD 0 + ops.countP RemoteOp.isProfileAppend
    ∧ st.profile_count.getD 0 ≤ (applyOps ops st).profile_count.getD 0 := by
  refine ⟨applyOps_profile_count ops st, ?_⟩
  rw [applyOps_profile_count ops st]
  exact Nat.le_add_right _ _

/-- C3: the clear operation is not durable for a remote-backed user.
At the concrete failing input — user `u1` (non-guest, so the active
backend is the remote one) with one remote conversation — the handler
empties the session history (the immediate list is empty) but leaves
the remote collection untouched, so a fresh load after a process
restart returns the old entry instead of the empty sequence the claim
requires. -/
theorem C3_clear_not_durable_for_remote_user :
    (delete_all (AppState.mk "u1"
        [Conversation.mk (some "2025-01-01T00:00:00") (some "hi") (some "hello")
          (some "chat") (some "en")]
        [("2025-01-01T00:00:00",
          Conversation.mk none (some "hi") (some "hello") (some "chat") (some "en"))]
        (fun _ => LocalFile.absent))).history = []
    ∧ (delete_all (AppState.mk "u1"
        [Conversation.mk (some "2025-01-01T00:00:00") (some "hi") (some "hello")
          (some "chat") (some "en")]
        [("2025-01-01T00:00:00",
          Conversation.mk none (some "hi") (some "hello") (some "chat") (some "en"))]
        (fun _ => LocalFile.absent))).remote
      = [("2025-01-01T00:00:00",
          Conversation.mk none (some "hi") (some "hello") (some "chat") (some "en"))]
    ∧ load_history_on_start (delete_all (AppState.mk "u1"
        [Conversation.mk (some "2025-01-01T00:00:00") (some "hi") (some "hello")
          (some "chat") (some "en")]
        [("2025-01-01T00:00:00",
          Conversation.mk none (some "hi") (some "hello") (some "chat") (some "en"))]
        (fun _ => LocalFile.absent)))
      = [Conversation.mk (some "2025-01-01T00:00:00") (some "hi") (some "hello")
          (some "chat") (some "en")] := by
  decide

/-- C4 counterexample: the remote append path keys the stored record by
a fresh clock reading, not by the entry's own `timestamp` field. With
the entry carrying timestamp `…000001` and the save happening at
`…000002`, the immediate `List(limit=1)` returns a record whose
timestamp is the save-time key, which differs from the appended
entry's timestamp — the returned record is not the appended entry. -/
theorem C4_counterexample :
    FirebaseAuth.get_user_conversations
        (save_user_history_to_firebase "2025-01-01T10:00:00.000002"
          (Conversation.mk (some "2025-01-01T10:00:00.000001") (some "p") (some "r")
            (some "chat") (some "en")) []) 1
      = [Conversation.mk (some "2025-01-01T10:00:00.000002") (some "p") (some "r")
          (some "chat") (some "en")]
    ∧ FirebaseAuth.get_user_conversations
        (save_user_history_to_firebase "2025-01-01T10:00:00.000002"
          (Conversation.mk (some "2025-01-01T10:00:00.000001") (some "p") (some "r")
            (some "chat") (some "en")) []) 1
      ≠ [Conversation.mk (some "2025-01-01T10:00:00.000001") (some "p") (some "r")
          (some "chat") (some "en")] := by
  decide

/-- C4 (amended): `Append` through the remote path immediately followed
by `List(limit=1)` returns exactly one record carrying the appended
entry's prompt, response, mode and language (with the save path's
`dict.get` defaults), but with the save-time key as its timestamp —
provided the save-time key is strictly greater (in string order) than
every existing key of the collection. -/
theorem C4_amended_append_then_list (now : String) (entry : Conversation)
    (convs : List (String × Conversation))
    (hfresh : ∀ q ∈ convs, q.1.data < now.data) :
    FirebaseAuth.get_user_conversations
        (save_user_history_to_firebase now entry convs) 1
      = [Conversation.mk (some now) (some (entry.prompt.getD ""))
          (some (entry.response.getD "")) (some (entry.mode.getD "chat"))
          (some (entry.language.getD "en"))] := by
  have hne : ∀ q ∈ convs, q.1 ≠ now := by
    intro q hq he
    have hlt := hfresh q hq
    rw [he] at hlt
    exact lt_irrefl _ hlt
  rw [FirebaseAuth.get_user_conversations, save_user_history_to_firebase,
    dictSet_eq_append _ _ _ hne, withTs_append]
  have hmax : ∀ y ∈ withTs convs,
      tsKey y < tsKey (Conversation.mk (some now) (some (entry.prompt.getD ""))
        (some (entry.response.getD "")) (some (entry.mode.getD "chat"))
        (some (entry.language.getD "en"))) := by
    intro y hy
    obtain ⟨q, hq, rfl⟩ := List.mem_map.mp hy
    simpa [tsKey] using hfresh q hq
  rw [show withTs [(now, stripForRemote entry)]
      = [Conversation.mk (some now) (some (entry.prompt.getD ""))
          (some (entry.response.getD "")) (some (entry.mode.getD "chat"))
          (some (entry.language.getD "en"))] from rfl]
  rw [sortDesc_append_max _ _ hmax]
  rfl

/-- C4 witness: a concrete append over a one-entry collection whose key
is older than the save time. -/
theorem C4_amended_witness :
    FirebaseAuth.get_user_conversations
        (save_user_history_to_firebase "2025-01-02T00:00:00"
          (Conversation.mk (some "2025-01-02T00:00:01") (some "p") (some "r")
            (some "qa") (some "fr"))
          [("2025-01-01T00:00:00",
            Conversation.mk none (some "old") (some "resp") (some "chat") (some "en"))]) 1
      = [Conversation.mk (some "2025-01-02T00:00:00") (some "p") (some "r")
          (some "qa") (some "fr")] :=
  C4_amended_append_then_list "2025-01-02T00:00:00"
    (Conversation.mk (some "2025-01-02T00:00:01") (some "p") (some "r")
      (some "qa") (some "fr"))
    [("2025-01-01T00:00:00",
      Conversation.mk none (some "old") (some "resp") (some "chat") (some "en"))]
    (by decide)

/-- C5: `List(user, limit=N)` returns the collection's records sorted
in non-increasing order of their timestamp strings (newest first), and
its length is `min(N, collection size)`. -/
theorem C5_list_sorted_and_length (conversations : List (String × Conversation))
    (limit : Nat) :
    (FirebaseAuth.get_user_conversations conversations limit).Pairwise
        (fun a b => tsKey b ≤ tsKey a)
    ∧ (FirebaseAuth.get_user_conversations conversations limit).length
        = min limit conversations.length := by
  constructor
  · exact List.Pairwise.sublist (List.take_sublist _ _) (sorted_sortDesc _)
  · rw [FirebaseAuth.get_user_conversations, List.length_take, length_sortDesc]
    simp [withTs]

/-- Helper: over the parsed dict, `total_users` is the maximum of the
remote user count (zero when the probe failed, since the enumeration
is skipped) and the size of the dict. -/
theorem calculate_stats_total_users (p : String → Option String) (today : String)
    (ok : Bool) (remote : List (String × List (String × Conversation)))
    (localHistories : List (String × List Conversation)) :
    (calculate_stats p today ok remote localHistories).total_users
      = max (if ok then remote.length else 0) localHistories.length := by
  simp [calculate_stats, Dashboard.get_all_users]

/-- Helper: when every local history file parses, the listing returns
one dict entry per file. -/
theorem length_get_all_local_histories_of_parse
    (localDir : List (String × Option (List Conversation)))
    (hparse : ∀ q ∈ localDir, q.2 ≠ none) :
    (get_all_local_histories localDir).length = localDir.length := by
  induction localDir with
  | nil => rfl
  | cons q rest ih =>
    obtain ⟨u, o⟩ := q
    cases o with
    | none => exact absurd rfl (hparse (u, none) (List.mem_cons_self _ _))
    | some entries =>
      rw [get_all_local_histories, List.length_cons, List.length_cons,
        ih (fun q hq => hparse q (List.mem_cons_of_mem _ hq))]

/-- C6 counterexample: with the remote probe failed and two local
history files of which the first is unparsable, `get_all_local_histories`
aborts on the first file and returns an empty dict, so the run reports
`total_users = 0`, not `max(0, 2) = 2` as the claim requires. -/
theorem C6_counterexample :
    (calculate_stats_run (fun _ => none) "" false []
        [("a", none), ("b", some [])]).total_users = 0
    ∧ ([("a", (none : Option (List Conversation))), ("b", some [])]).length = 2
    ∧ (calculate_stats_run (fun _ => none) "" false []
        [("a", none), ("b", some [])]).total_users
      ≠ max 0 ([("a", (none : Option (List Conversation))), ("b", some [])]).length := by
  decide

/-- C6 (amended): on every aggregation run in which every local history
file parses, the reported `total_users` equals the maximum of the
number of users enumerated from the remote backend (zero when the
probe failed) and the number of local user history files — never their
sum. In general the local count is the number of files parsed before
the first unparsable one, which the all-parse hypothesis makes equal
to the file count. -/
theorem C6_total_users_amended (p : String → Option String) (today : String)
    (ok : Bool) (remote : List (String × List (String × Conversation)))
    (localDir : List (String × Option (List Conversation)))
    (hparse : ∀ q ∈ localDir, q.2 ≠ none) :
    (calculate_stats_run p today ok remote localDir).total_users
      = max (if ok then remote.length else 0) localDir.length := by
  rw [calculate_stats_run, calculate_stats_total_users,
    length_get_all_local_histories_of_parse localDir hparse]

/-- C6 witness: one remote user and one parsable local file. -/
theorem C6_total_users_amended_witness :
    (calculate_stats_run (fun _ => none) "2025-01-01" true
        [("r", [])] [("u", some [])]).total_users
      = max (if true then 1 else 0) 1 :=
  C6_total_users_amended (fun _ => none) "2025-01-01" true
    [("r", [])] [("u", some [])] (by decide)

/-- C7: the local read path returns the empty sequence, and surfaces no
error, when the user's history file is absent or fails to parse as
JSON. -/
theorem C7_local_load_degrades (fs : FileSystem) (u : String)
    (h : fs (get_user_history_path u) = LocalFile.absent
      ∨ fs (get_user_history_path u) = LocalFile.invalid) :
    load_chat_history fs u = [] := by
  rw [load_chat_history]
  rcases h with h | h <;> rw [h]

/-- C7 witness: a disk on which every file is unparsable still yields
the empty history. -/
theorem C7_local_load_degrades_witness :
    load_chat_history (fun _ => LocalFile.invalid) "guest" = [] :=
  C7_local_load_degrades (fun _ => LocalFile.invalid) "guest" (Or.inr rfl)

/-- C8: a record of any scanned collection — a remote collection when
the probe succeeded, or a local file passing the guard (a guest file,
or any file when the probe failed) — whose timestamp is missing or
unparsable does not abort the aggregation and is excluded only from
the active-today set: the total message count is still the full number
of scanned records (including it), the language and mode counters and
the response-length list are still computed over all scanned records
(including it), the bad record never makes its user active, and a user
is active exactly when some scanned record other than the bad one
parses to today. -/
theorem C8_unparsable_timestamp (p : String → Option String) (today : String)
    (ok : Bool) (remote : List (String × List (String × Conversation)))
    (localHistories : List (String × List Conversation)) (bad : Conversation)
    (hscan : bad ∈ scannedEntries ok remote localHistories)
    (hparse : p (bad.timestamp.getD "") = none) :
    (calculate_stats p today ok remote localHistories).total_messages
        = (scannedEntries ok remote localHistories).length
    ∧ bad ∈ scannedEntries ok remote localHistories
    ∧ (∀ l, (calculate_stats p today ok remote localHistories).languages_used l
        = countLang l (scannedEntries ok remote localHistories))
    ∧ (∀ m, (calculate_stats p today ok remote localHistories).modes_used m
        = countMode m (scannedEntries ok remote localHistories))
    ∧ (scanAcc p today ok remote localHistories).response_lengths
        = (scannedEntries ok remote localHistories).filterMap respLen
    ∧ ¬ activeToday p today bad
    ∧ (∀ u, u ∈ (scanAcc p today ok remote localHistories).active
        ↔ (ok = true ∧ ∃ q ∈ remote, q.1 = u
            ∧ ∃ kc ∈ q.2, kc.2 ≠ bad ∧ activeToday p today kc.2)
          ∨ (∃ q ∈ localHistories, q.1 = u ∧ (ok = false ∨ q.1 = "guest")
              ∧ ∃ c ∈ q.2, c ≠ bad ∧ activeToday p today c)) := by
  have hnotbad : ¬ activeToday p today bad := by
    rw [activeToday, hparse]
    simp
  refine ⟨?_, hscan, ?_, ?_, ?_, hnotbad, ?_⟩
  · rw [calculate_stats_messages, scanAcc_messages]
  · intro l
    rw [calculate_stats_languages, scanAcc_languages]
  · intro m
    rw [calculate_stats_modes, scanAcc_modes]
  · exact scanAcc_rl p today ok remote localHistories
  · intro u
    rw [scanAcc_active]
    constructor
    · rintro (⟨hok, q, hq, hu, kc, hkc, ha⟩ | ⟨q, hq, hu, hg, c, hc, ha⟩)
      · refine Or.inl ⟨hok, q, hq, hu, kc, hkc, ?_, ha⟩
        intro he
        rw [he] at ha
        exact hnotbad ha
      · refine Or.inr ⟨q, hq, hu, hg, c, hc, ?_, ha⟩
        intro he
        rw [he] at ha
        exact hnotbad ha
    · rintro (⟨hok, q, hq, hu, kc, hkc, hne, ha⟩ | ⟨q, hq, hu, hg, c, hc, hne, ha⟩)
      · exact Or.inl ⟨hok, q, hq, hu, kc, hkc, ha⟩
      · exact Or.inr ⟨q, hq, hu, hg, c, hc, ha⟩

/-- C8 witness: with the probe failed, a local file whose only record
has no parsable timestamp is scanned through the local branch and
still fully counted in the totals. -/
theorem C8_unparsable_timestamp_witness :
    (calculate_stats (fun _ => none) "2025-01-02" false []
        [("u", [Conversation.mk none (some "q") (some "a")
          (some "chat") (some "en")])]).total_messages
      = (scannedEntries false []
          [("u", [Conversation.mk none (some "q") (some "a")
            (some "chat") (some "en")])]).length :=
  (C8_unparsable_timestamp (fun _ => none) "2025-01-02" false []
    [("u", [Conversation.mk none (some "q") (some "a") (some "chat") (some "en")])]
    (Conversation.mk none (some "q") (some "a") (some "chat") (some "en"))
    (by decide) rfl).1

/-- C9 counterexample: with exactly two non-empty responses of lengths
1 and 2, the code reports `int(3/2) = 1`, which is not the arithmetic
mean `3/2` (it would have to satisfy `avg * 2 = 3`); so the reported
value is the floor of the mean, not the mean. -/
theorem C9_counterexample :
    (scanAcc (fun _ => none) "" false []
        [("u", [Conversation.mk none (some "q") (some "a") (some "chat") (some "en"),
          Conversation.mk none (some "q") (some "bc") (some "chat")
            (some "en")])]).response_lengths
      = [1, 2]
    ∧ (calculate_stats (fun _ => none) "" false []
        [("u", [Conversation.mk none (some "q") (some "a") (some "chat") (some "en"),
          Conversation.mk none (some "q") (some "bc") (some "chat")
            (some "en")])]).avg_response_length * 2
      ≠ 1 + 2 := by
  decide

/-- C9 (amended): `avg_response_length` equals the integer floor of the
arithmetic mean of the character counts of `response` over exactly the
scanned records with a non-empty response, and `0` when there is no
such record. -/
theorem C9_amended_avg_response_length (p : String → Option String) (today : String)
    (ok : Bool) (remote : List (String × List (String × Conversation)))
    (localHistories : List (String × List Conversation)) :
    (calculate_stats p today ok remote localHistories).avg_response_length
      = (if (scannedEntries ok remote localHistories).filterMap respLen = [] then 0
         else ((scannedEntries ok remote localHistories).filterMap respLen).sum
           / ((scannedEntries ok remote localHistories).filterMap respLen).length) := by
  rw [calculate_stats_avg, scanAcc_rl]

/-- C10: the dashboard reads each remote collection as the dictionary
values only, and the UI's remote write path stores no `timestamp`
field, so every record the aggregator sees for such collections has no
timestamp; consequently no remote-backed user is ever added to the
active-today set, whatever the write times were. -/
theorem C10_remote_entries_never_active (p : String → Option String) (today : String)
    (writes : List (String × List (String × Conversation)))
    (hp : p "" = none) :
    (∀ q ∈ writes.map (fun w => (w.1, buildUI w.2)),
        ∀ c ∈ Dashboard.get_user_conversations q.2, c.timestamp = none)
    ∧ (scanAcc p today true (writes.map (fun w => (w.1, buildUI w.2))) []).active = []
    ∧ (calculate_stats p today true
        (writes.map (fun w => (w.1, buildUI w.2))) []).active_today = 0 := by
  have hts : ∀ q ∈ writes.map (fun w => (w.1, buildUI w.2)),
      ∀ kc ∈ q.2, kc.2.timestamp = none := by
    intro q hq
    obtain ⟨w, hw, rfl⟩ := List.mem_map.mp hq
    exact buildUI_timestamp_none w.2
  have hactive : (scanAcc p today true
      (writes.map (fun w => (w.1, buildUI w.2))) []).active = [] := by
    rw [List.eq_nil_iff_forall_not_mem]
    intro u hu
    rcases (scanAcc_active p today true _ [] u).mp hu with
      ⟨-, q, hq, -, kc, hkc, ha⟩ | ⟨q, hq, -⟩
    · rw [activeToday, hts q hq kc hkc] at ha
      rw [Option.getD_none] at ha
      rw [hp] at ha
      exact Option.noConfusion ha
    · exact absurd hq (List.not_mem_nil q)
  refine ⟨?_, hactive, ?_⟩
  · intro q hq c hc
    obtain ⟨kc, hkc, rfl⟩ := List.mem_map.mp hc
    exact hts q hq kc hkc
  · rw [calculate_stats_active, hactive]
    rfl

/-- C10 witness: one remote user whose single record was written by the
UI path is not active today. -/
theorem C10_remote_entries_never_active_witness :
    (calculate_stats (fun _ => none) "2025-01-01" true
        ([("u", [("2025-01-01T00:00:00",
          Conversation.mk (some "2025-01-01T00:00:00") (some "q") (some "a")
            (some "chat") (some "en"))])].map (fun w => (w.1, buildUI w.2)))
        []).active_today = 0 :=
  (C10_remote_entries_never_active (fun _ => none) "2025-01-01"
    [("u", [("2025-01-01T00:00:00",
      Conversation.mk (some "2025-01-01T00:00:00") (some "q") (some "a")
        (some "chat") (some "en"))])] rfl).2.2

end Gemini
